import Mathlib

/-
Verification development for the mos-chinadns DNS forwarder.

The repository contains two generations of the dispatcher:

* `dispatcher.go` (modelled below in namespace `V1`): the cache-equipped
  dispatcher with `ServeDNS`, `tryGetFromCache`, `tryAddToCache` and the
  racing `dispatch`.
* the server dispatcher inside the second compilation unit (modelled in
  namespace `V2`): `ServeDNS` (SERVFAIL synthesis), `Dispatch` and
  `StartServer`.

Go values are embedded as follows: machine integers become `Nat` (the TTL
arithmetic never overflows 32 bits for the inputs considered, and the code
performs no wrapping arithmetic on them), `*dns.Msg` becomes the `Msg`
structure restricted to the fields the dispatcher reads or writes, Go
functions returning `(T, error)` become `Except E T` (in the source every
return site sets exactly one of the pair), a Go `error` return alone becomes
`Option E` (`none` = `nil`), and a Go runtime panic (out-of-range index)
becomes the `.error` branch of `Except GoPanic _`.

Concurrency is embedded by making the scheduling environment explicit:
the per-upstream goroutines of `dispatch`/`Dispatch` are summarised by the
list of their outcomes in publication order (`none` = the goroutine failed,
was filtered or errored and returned silently; `some r` = it tried a
non-blocking send of the accepted reply `r` on the one-slot result channel),
and the `select` is resolved by a `CtxEvent` parameter saying whether
`ctx.Done()` fired (and was selected) before any result or failure
notification was delivered.
-/

set_option maxRecDepth 4096

/-- One DNS question (miekg/dns `dns.Question`): name, qtype, qclass. -/
structure Question where
  name : String
  qtype : Nat
  qclass : Nat
  deriving DecidableEq

/-- One resource record, reduced to the only field the dispatcher touches:
the TTL stored in its header (`rr.Header().Ttl`). -/
structure RR where
  ttl : Nat
  deriving DecidableEq

/-- A DNS message (miekg/dns `dns.Msg`) reduced to the fields the dispatcher
reads or writes.  `hasECS` abstracts "the OPT record of the message carries
an EDNS0 client-subnet option"; the repository's `checkMsgHasECS` helper
(not part of src/) only inspects that bit. -/
structure Msg where
  id : Nat
  response : Bool
  opcode : Nat
  recursionDesired : Bool
  checkingDisabled : Bool
  rcode : Nat
  question : List Question
  answer : List RR
  ns : List RR
  extra : List RR
  hasECS : Bool
  deriving DecidableEq

/-- `new(dns.Msg)`: the zero value of the message structure. -/
def Msg.empty : Msg :=
  { id := 0, response := false, opcode := 0, recursionDesired := false,
    checkingDisabled := false, rcode := 0, question := [], answer := [],
    ns := [], extra := [], hasECS := false }

/-- miekg/dns `dns.RcodeSuccess` (NOERROR). -/
def rcodeSuccess : Nat := 0

/-- miekg/dns `dns.RcodeServerFailure` (SERVFAIL). -/
def rcodeServerFailure : Nat := 2

/-- miekg/dns `dns.OpcodeQuery`. -/
def opcodeQuery : Nat := 0

/-- Modelled from the spec: `has_ecs(msg) → bool` — true iff the OPT record
carries an ECS option (§4.1).  The repository helper `checkMsgHasECS` is not
under src/; the presence bit is carried by the `hasECS` field of `Msg`. -/
def checkMsgHasECS (m : Msg) : Bool := m.hasECS

/-- Modelled from the spec: a `CacheEntry` of the answer cache (§3, §4.2;
the `dispatcher/cache` package is not under src/): the stored reply together
with its absolute expiry, keyed by the question.  Capacity-based eviction is
irrelevant to the claims and omitted. -/
abbrev Cache := List (Question × Msg × Nat)

/-- Modelled from the spec: `cache.get` (§4.2) — return the stored reply for
the key if `now` is before its absolute expiry, otherwise a miss. -/
def Cache.get : Cache → Question → Nat → Option Msg
  | [], _, _ => none
  | (k0, m, expireAt) :: rest, k, now =>
    if k0 = k then (if now < expireAt then some m else none)
    else Cache.get rest k now

/-- Modelled from the spec: `cache.add` (§4.2) — insert the reply under the
question key with an absolute expiry. -/
def Cache.add (c : Cache) (k : Question) (m : Msg) (expireAt : Nat) : Cache :=
  (k, m, expireAt) :: c

/-- Modelled from the spec: `min_answer_ttl(msg) → u32` (§4.1; the
`dispatcher/utils` TTL helpers are not under src/): minimum TTL across a
non-empty Answer section, `0` if the section is empty. -/
def GetAnswerMinTTL (m : Msg) : Nat :=
  match m.answer with
  | [] => 0
  | rr :: rest => (rest.map RR.ttl).foldl Nat.min rr.ttl

/-- Modelled from the spec: `set_ttl(msg, ttl)` (§4.1; the
`dispatcher/utils` TTL helpers are not under src/): overwrite the TTL of
every RR in Answer/Authority/Additional with `ttl`. -/
def SetAnswerTTL (m : Msg) (ttl : Nat) : Msg :=
  { m with
    answer := m.answer.map fun rr => { rr with ttl := ttl }
    ns := m.ns.map fun rr => { rr with ttl := ttl }
    extra := m.extra.map fun rr => { rr with ttl := ttl } }

/-- A Go runtime panic raised by the embedded code. -/
inductive GoPanic
  | indexOutOfRange
  deriving DecidableEq

/-- The error outcomes of `dispatch`/`Dispatch`: `ErrUpstreamsFailed`,
`context.DeadlineExceeded` and `context.Canceled`. -/
inductive DispatchError
  | allUpstreamsFailed
  | deadlineExceeded
  | cancelled
  deriving DecidableEq

/-- Which `select` branch involving the context fired first: `noEvent` means
a result or the all-failed notification was delivered before `ctx.Done()`
was selected; `deadline`/`cancelled` mean `ctx.Done()` was selected first
and `ctx.Err()` is the corresponding error. -/
inductive CtxEvent
  | noEvent
  | deadline
  | cancelled
  deriving DecidableEq

namespace V1

/-- The configuration bits of `dispatcher.Dispatcher` (dispatcher.go) that
the serving path reads: whether `d.cache.Cache != nil`, and `d.minTTL`. -/
structure Dispatcher where
  cacheEnabled : Bool
  minTTL : Nat
  deriving DecidableEq

/-- dispatcher.go `tryGetFromCache` (lines 124-137), translated verbatim:

```go
if len(q.Question) == 1 || checkMsgHasECS(q) == true { return nil }
if r := d.cache.Get(q.Question[0]); r != nil { r.Id = q.Id; return r }
return nil
```

`q.Question[0]` on an empty question section is a Go index-out-of-range
panic, embedded as `.error .indexOutOfRange`. -/
def tryGetFromCache (c : Cache) (q : Msg) (now : Nat) :
    Except GoPanic (Option Msg) :=
  if q.question.length == 1 || checkMsgHasECS q then
    .ok none
  else
    match q.question[0]? with
    | none => .error .indexOutOfRange
    | some q0 =>
      match Cache.get c q0 now with
      | some r => .ok (some { r with id := q.id })
      | none => .ok none

/-- dispatcher.go `tryAddToCache` (lines 140-146): add `r` under its first
question with expiry `time.Now().Add(ttl)` iff `len(r.Question) == 1 &&
r.Rcode == dns.RcodeSuccess` (the one-element pattern match is exactly the
`len == 1` guard and names the element the source reads as
`r.Question[0]`). -/
def tryAddToCache (c : Cache) (r : Msg) (ttl : Nat) (now : Nat) : Cache :=
  match r.question with
  | [q0] => if r.rcode == rcodeSuccess then Cache.add c q0 r (now + ttl) else c
  | _ => c

/-- dispatcher.go `ServeDNS` lines 111-120, the part after `d.dispatch`
returned: rewrite the reply TTL to `max(GetAnswerMinTTL r, d.minTTL)`
(written as in the source: `if ttl < d.minTTL { ttl = d.minTTL }`), then
`tryAddToCache` when the cache is enabled.  Returns the reply/error pair
and the resulting cache. -/
def afterDispatch (d : Dispatcher) (c : Cache) (dres : Except DispatchError Msg)
    (now : Nat) : Except DispatchError Msg × Cache :=
  match dres with
  | .error e => (.error e, c)
  | .ok r =>
    let ttl0 := GetAnswerMinTTL r
    let ttl := if ttl0 < d.minTTL then d.minTTL else ttl0
    let r2 := SetAnswerTTL r ttl
    (.ok r2, if d.cacheEnabled then tryAddToCache c r2 ttl now else c)

/-- dispatcher.go `ServeDNS` (lines 95-122).  The dispatch outcome `dres`
is the environment's summary of `d.dispatch(ctx, q)`; `now` is the cache
clock.  Result: the Go `(r, err)` pair as an `Except`, paired with the cache
state after the call; a panic inside `tryGetFromCache` propagates. -/
def ServeDNS (d : Dispatcher) (c : Cache) (q : Msg)
    (dres : Except DispatchError Msg) (now : Nat) :
    Except GoPanic (Except DispatchError Msg × Cache) :=
  if d.cacheEnabled then
    match tryGetFromCache c q now with
    | .error p => .error p
    | .ok (some r) => .ok (.ok r, c)
    | .ok none => .ok (afterDispatch d c dres now)
  else
    .ok (afterDispatch d c dres now)

/-- dispatcher.go `dispatch` (lines 153-220).  `results` lists the upstream
goroutine outcomes in publication order (`none`: `u.Exchange` returned an
error or a nil reply, the goroutine returned silently; `some r`: it performed
the non-blocking send of `r` on the one-slot `resChan`, losers drop).  The
notification goroutine closes the failure channel only after `upstreamWG.Wait()`
returns with `len(resChan) == 0`, i.e. exactly when no goroutine published;
`ev` says whether `ctx.Done()` was selected before any delivery. -/
def dispatch (results : List (Option Msg)) (ev : CtxEvent) :
    Except DispatchError Msg :=
  match ev with
  | .deadline => .error .deadlineExceeded
  | .cancelled => .error .cancelled
  | .noEvent =>
    match results.filterMap id with
    | [] => .error .allUpstreamsFailed
    | m :: _ => .ok m

end V1

namespace dnslib

/-- miekg/dns `Msg.SetReply(request)` applied to receiver `m`, written
field-wise (the source mutates the receiver in sequence: `Id`, `Response`,
`Opcode`, then `RecursionDesired`/`CheckingDisabled` when the opcode is
QUERY, `Rcode = RcodeSuccess`, and copies the first question when the
request has one). -/
def SetReply (m request : Msg) : Msg :=
  { m with
    id := request.id
    response := true
    opcode := request.opcode
    recursionDesired :=
      if request.opcode = opcodeQuery then request.recursionDesired
      else m.recursionDesired
    checkingDisabled :=
      if request.opcode = opcodeQuery then request.checkingDisabled
      else m.checkingDisabled
    rcode := rcodeSuccess
    question :=
      match request.question with
      | [] => m.question
      | q0 :: _ => [q0] }

/-- Count of leading backslash characters of a character list. -/
def countLeadingBackslashes : List Char → Nat
  | '\\' :: rest => countLeadingBackslashes rest + 1
  | _ => 0

/-- miekg/dns `IsFqdn`: the string ends in an unescaped dot, i.e. it ends in
`'.'` preceded by an even number of backslashes (the source strips one
trailing dot and tests the parity of the trailing backslash run). -/
def IsFqdn (s : String) : Bool :=
  match s.data.reverse with
  | '.' :: rest => countLeadingBackslashes rest % 2 == 0
  | _ => false

/-- miekg/dns `Fqdn`: append a trailing dot unless the name is already
fully qualified. -/
def Fqdn (s : String) : String :=
  if IsFqdn s then s else s ++ "."

end dnslib

namespace V2

/-- load_helper second unit, `Dispatch` (lines 195-245).  Same racing logic
as `V1.dispatch`: `results` lists the per-entry goroutine outcomes in
publication order (`none`: `entry.Exchange` errored or replied nil, the
goroutine returned silently; `some r`: it performed the non-blocking send on
the one-slot `resChan`).  The failure channel is closed only after
`upstreamWG.Wait()` returns with `len(resChan) == 0`; `ev` says whether
`ctx.Done()` was selected before any delivery. -/
def Dispatch (results : List (Option Msg)) (ev : CtxEvent) :
    Except DispatchError Msg :=
  match ev with
  | .deadline => .error .deadlineExceeded
  | .cancelled => .error .cancelled
  | .noEvent =>
    match results.filterMap id with
    | [] => .error .allUpstreamsFailed
    | m :: _ => .ok m

/-- load_helper second unit, `ServeDNS` (lines 169-187): on
`ErrUpstreamsFailed` synthesize `new(dns.Msg).SetReply(q)` with
`Rcode = RcodeServerFailure` and return it together with the error; other
dispatch errors return `(nil, err)`; on success return the reply (the
ipset side effect does not touch the reply and is external I/O, omitted).
The Go `(r, err)` pair is kept literally as `Option Msg × Option
DispatchError`. -/
def ServeDNS (q : Msg) (results : List (Option Msg)) (ev : CtxEvent) :
    Option Msg × Option DispatchError :=
  match Dispatch results ev with
  | .ok r => (some r, none)
  | .error e =>
    if e = .allUpstreamsFailed then
      (some { dnslib.SetReply Msg.empty q with rcode := rcodeServerFailure },
       some e)
    else
      (none, some e)

/-- The startup errors of `StartServer`; `listenerExited e` is
`fmt.Errorf("server listener failed and exited: %w", e)` (note that wrapping
a nil listener error still yields a non-nil error in Go, hence the
`Option String` payload). -/
inductive StartServerError
  | noAddressToBind
  | invalidBindAddress (s : String)
  | invalidBindProtocol (network : String)
  | listenFailed (e : String)
  | listenerExited (e : Option String)
  deriving DecidableEq

/-- Go `strings.Split(s, "://")` on the character list: split around each
non-overlapping occurrence of `':' '/' '/'`, scanning left to right. -/
def splitSep3 (a b c : Char) : List Char → List (List Char)
  | [] => [[]]
  | [x] => [[x]]
  | [x, y] => [[x, y]]
  | x :: y :: z :: rest =>
    if x = a ∧ y = b ∧ z = c then
      [] :: splitSep3 a b c rest
    else
      match splitSep3 a b c (y :: z :: rest) with
      | [] => [[x]]
      | p :: ps => (x :: p) :: ps

/-- Go `strings.Split(s, "://")` (the only separator `StartServer` uses). -/
def goSplitScheme (s : String) : List String :=
  (splitSep3 ':' '/' '/' s.data).map fun cs => String.mk cs

/-- The bind loop of `StartServer` (lines 256-296): split each bind string
on `"://"` (Go `strings.Split`; exactly two parts required), listen with
`net.Listen` for tcp networks and `net.ListenPacket` for udp networks
(outcomes supplied by the environment functions, `none` = success), fail on
anything else.  Returns `none` when every bind was set up and its server
goroutine spawned. -/
def bindLoop (listen listenPacket : String → String → Option String) :
    List String → Option StartServerError
  | [] => none
  | s :: rest =>
    match goSplitScheme s with
    | [network, addr] =>
      if network = "tcp" ∨ network = "tcp4" ∨ network = "tcp6" then
        match listen network addr with
        | some e => some (.listenFailed e)
        | none => bindLoop listen listenPacket rest
      else if network = "udp" ∨ network = "udp4" ∨ network = "udp6" then
        match listenPacket network addr with
        | some e => some (.listenFailed e)
        | none => bindLoop listen listenPacket rest
      else some (.invalidBindProtocol network)
    | _ => some (.invalidBindAddress s)

/-- load_helper second unit, `StartServer` (lines 248-301): error on an
empty bind list, run the bind loop, and otherwise block on `errChan` until
some listener goroutine exits with `listenerErr` (the first error received,
possibly Go-nil) and wrap it.  The Go `error` result is `Option
StartServerError` with `none` = `nil`. -/
def StartServer (listen listenPacket : String → String → Option String)
    (listenerErr : Option String) (binds : List String) :
    Option StartServerError :=
  if binds.isEmpty then some .noAddressToBind
  else
    match bindLoop listen listenPacket binds with
    | some e => some e
    | none => some (.listenerExited listenerErr)

end V2

namespace domainlist

/-- Go `unicode.IsSpace` restricted to the Latin-1 range it special-cases:
`'\t' '\n' '\v' '\f' '\r' ' '` and U+0085/U+00A0 (domain-set files are
ASCII; the remaining Unicode space classes never occur in them). -/
def isGoSpace (c : Char) : Bool :=
  c = ' ' ∨ c = '\t' ∨ c = '\n' ∨ c = Char.ofNat 11 ∨ c = Char.ofNat 12 ∨
    c = '\r' ∨ c = Char.ofNat 133 ∨ c = Char.ofNat 160

/-- Go `strings.TrimSpace`: drop leading and trailing white space. -/
def goTrimSpace (s : String) : String :=
  String.mk (((s.data.dropWhile isGoSpace).reverse.dropWhile isGoSpace).reverse)

/-- Go `strings.HasPrefix(line, "#")`. -/
def goHasPrefixHash (s : String) : Bool :=
  match s.data with
  | '#' :: _ => true
  | _ => false

/-- The error of `NewListFormReader`:
`fmt.Errorf("invalid domain [%s] at line %d", line, lineCounter)`. -/
structure LoadError where
  line : String
  lineNumber : Nat
  deriving DecidableEq

/-- load_helper.go `NewListFormReader` scanner loop (lines 43-64).
`isDomainName` abstracts the external `dns.IsDomainName` check; `n` is the
number of lines already consumed (`lineCounter` is `n + 1` for the line at
the head).  Each line is trimmed; empty and `#` lines are skipped; otherwise
the line is qualified with `dns.Fqdn` and, when the check fails with
`continueOnInvalidString` false, the loop returns the error — in every other
case the source falls through to `l.Add(fqdn)` (with only a warning logged
for an invalid line when `continueOnInvalidString` is true). -/
def loadLoop (isDomainName : String → Bool) (continueOnInvalidString : Bool) :
    List String → Nat → Except LoadError (List String)
  | [], _ => .ok []
  | l :: rest, n =>
    let line := goTrimSpace l
    if line.isEmpty || goHasPrefixHash line then
      loadLoop isDomainName continueOnInvalidString rest (n + 1)
    else
      let fqdn := dnslib.Fqdn line
      if !isDomainName fqdn && !continueOnInvalidString then
        .error ⟨line, n + 1⟩
      else
        match loadLoop isDomainName continueOnInvalidString rest (n + 1) with
        | .error e => .error e
        | .ok tail => .ok (fqdn :: tail)

/-- load_helper.go `NewListFormReader` (lines 40-67), with the reader already
split into `lines` by `bufio.Scanner` and the domain list represented by the
list of entries in the order they were `Add`ed. -/
def NewListFormReader (isDomainName : String → Bool)
    (continueOnInvalidString : Bool) (lines : List String) :
    Except LoadError (List String) :=
  loadLoop isDomainName continueOnInvalidString lines 0

/-- The trimmed, non-blank, non-comment lines, in order — the lines the
loader actually processes. -/
def processedLines (lines : List String) : List String :=
  (lines.map goTrimSpace).filter fun l => !(l.isEmpty || goHasPrefixHash l)

/-- The first processed line whose `Fqdn` fails the domain-name check,
together with its 1-based line number in the raw input. -/
def firstInvalid (isDomainName : String → Bool) :
    List String → Nat → Option (String × Nat)
  | [], _ => none
  | l :: rest, n =>
    let line := goTrimSpace l
    if line.isEmpty || goHasPrefixHash line then
      firstInvalid isDomainName rest (n + 1)
    else if !isDomainName (dnslib.Fqdn line) then some (line, n + 1)
    else firstInvalid isDomainName rest (n + 1)

/-- Reference model of the loader written from the (amended) spec sentence:
blank and `#` lines are ignored; with `continueOnInvalidString` true every
processed line is added in FQDN form (invalid ones only draw a warning);
with it false the first invalid processed line aborts the load with an
error naming it, and otherwise every processed line is added in FQDN
form. -/
def newListSpecModel (isDomainName : String → Bool)
    (continueOnInvalidString : Bool) (lines : List String) :
    Except LoadError (List String) :=
  if continueOnInvalidString then
    .ok ((processedLines lines).map dnslib.Fqdn)
  else
    match firstInvalid isDomainName lines 0 with
    | some (l, n) => .error ⟨l, n⟩
    | none => .ok ((processedLines lines).map dnslib.Fqdn)

end domainlist

/-- A concrete question: an A/IN query for `example.com.`. -/
def exQuestion : Question := ⟨"example.com.", 1, 1⟩

/-- A concrete stored reply: one question, NOERROR, one answer RR with
TTL 300. -/
def exReply : Msg :=
  { Msg.empty with
    id := 7, response := true, question := [exQuestion],
    answer := [⟨300⟩] }

/-- A concrete cache holding `exReply` under `exQuestion`, expiring at
time 100. -/
def exCache : Cache := [(exQuestion, exReply, 100)]

/-- A concrete client query: exactly one question, no ECS. -/
def exQuery : Msg := { Msg.empty with id := 42, question := [exQuestion] }

/-- A concrete client query with an empty question section and no ECS. -/
def exNoQuestionQuery : Msg := { Msg.empty with id := 9 }

/-- A concrete dispatcher configuration: cache enabled, `minTTL = 60`. -/
def exConf : V1.Dispatcher := ⟨true, 60⟩

/-- A concrete client query carrying an ECS option. -/
def exQueryECS : Msg :=
  { Msg.empty with id := 5, question := [exQuestion], hasECS := true }

/-- The upstream reply to `exQueryECS`: one question, NOERROR, answer TTL
300, ECS echoed. -/
def exReplyECS : Msg :=
  { Msg.empty with
    id := 5, response := true, question := [exQuestion],
    answer := [⟨300⟩], hasECS := true }

/-- An environment in which every `net.Listen`/`net.ListenPacket` call
succeeds. -/
def alwaysListenOk : String → String → Option String := fun _ _ => none

/-- A domain-name check used by the loader counterexample; it agrees with
`dns.IsDomainName` on every string it is evaluated at there (`"a..b."` has
an empty label and is invalid, `"ok.com."` is valid). -/
def exIsDomainName (s : String) : Bool := s != "a..b."

/-- The TTL clamp of `ServeDNS` (`if ttl < minTTL { ttl = minTTL }`) is the
maximum of the two. -/
theorem ttlClamp_eq_max (a b : Nat) : (if a < b then b else a) = max a b := by
  rcases Nat.lt_or_ge a b with h | h
  · rw [if_pos h, Nat.max_eq_right (Nat.le_of_lt h)]
  · rw [if_neg (Nat.not_lt.mpr h), Nat.max_eq_left h]

/-- `afterDispatch` on a successful dispatch, with the clamp rewritten as a
maximum. -/
theorem afterDispatch_ok (d : V1.Dispatcher) (c : Cache) (r : Msg) (now : Nat) :
    V1.afterDispatch d c (.ok r) now =
      (.ok (SetAnswerTTL r (max (GetAnswerMinTTL r) d.minTTL)),
       if d.cacheEnabled then
         V1.tryAddToCache c (SetAnswerTTL r (max (GetAnswerMinTTL r) d.minTTL))
           (max (GetAnswerMinTTL r) d.minTTL) now
       else c) := by
  unfold V1.afterDispatch
  simp only [ttlClamp_eq_max]

/-- `ServeDNS` with the cache enabled and a cache miss runs the dispatch
path. -/
theorem serveDNS_miss (d : V1.Dispatcher) (c : Cache) (q : Msg)
    (dres : Except DispatchError Msg) (now : Nat)
    (hc : d.cacheEnabled = true)
    (hm : V1.tryGetFromCache c q now = .ok none) :
    V1.ServeDNS d c q dres now = .ok (V1.afterDispatch d c dres now) := by
  unfold V1.ServeDNS
  rw [hc, if_pos rfl, hm]

/-- `SetAnswerTTL` does not change the question section. -/
theorem setAnswerTTL_question (r : Msg) (t : Nat) :
    (SetAnswerTTL r t).question = r.question := rfl

/-- `SetAnswerTTL` does not change the RCODE. -/
theorem setAnswerTTL_rcode (r : Msg) (t : Nat) :
    (SetAnswerTTL r t).rcode = r.rcode := rfl

/-- `Cache.add` always grows the cache, so it never returns the cache it
was given. -/
theorem cache_add_ne (c : Cache) (k : Question) (m : Msg) (e : Nat) :
    Cache.add c k m e ≠ c := by
  intro h
  have hlen := congrArg List.length h
  simp [Cache.add] at hlen

/-- C1 — the claim says an exactly-one-question, ECS-free query probes the
cache and, on a fresh hit, is answered from it.  The code's guard
`len(q.Question) == 1 || checkMsgHasECS(q)` returns `nil` for precisely the
eligible queries: here the cache holds a non-expired entry for the query's
question, yet `tryGetFromCache` reports a miss, so `ServeDNS` goes to the
upstreams.  This evaluates the code at the failing input. -/
theorem c1_eligible_query_never_probes_cache :
    exQuery.question.length = 1 ∧
    checkMsgHasECS exQuery = false ∧
    Cache.get exCache exQuestion 0 = some exReply ∧
    V1.tryGetFromCache exCache exQuery 0 = .ok none := by
  refine ⟨rfl, rfl, ?_, rfl⟩
  simp [exCache, Cache.get]

/-- C8 — the claim says a zero-question, ECS-free query is a total cache
miss and proceeds to dispatch.  The code's inverted guard lets such a query
through to `q.Question[0]`, a Go index-out-of-range panic: `tryGetFromCache`
(and hence `ServeDNS` with a non-nil cache) panics instead of dispatching.
This evaluates the code at the failing input. -/
theorem c8_zero_question_query_panics :
    exNoQuestionQuery.question = [] ∧
    checkMsgHasECS exNoQuestionQuery = false ∧
    V1.tryGetFromCache exCache exNoQuestionQuery 0 = .error .indexOutOfRange ∧
    V1.ServeDNS exConf exCache exNoQuestionQuery (.ok exReply) 0 =
      .error .indexOutOfRange :=
  ⟨rfl, rfl, rfl, rfl⟩

/-- C6 — when the dispatch context's deadline elapses before any result or
all-failed notification is delivered, `dispatch` returns
`context.DeadlineExceeded`, and on caller cancellation it returns
`context.Canceled`; in both cases the `Except.error` result carries no
reply (the Go return is `(nil, ctx.Err())`). -/
theorem c6_ctx_done_errors (results : List (Option Msg)) :
    V1.dispatch results .deadline = .error .deadlineExceeded ∧
    V1.dispatch results .cancelled = .error .cancelled :=
  ⟨rfl, rfl⟩

/-- Characterization of `tryAddToCache`: it inserts exactly when the reply
has one question and RCODE NOERROR. -/
theorem tryAddToCache_insert (c : Cache) (r : Msg) (ttl now : Nat) (q0 : Question)
    (hq0 : r.question = [q0]) (hrc : r.rcode = rcodeSuccess) :
    V1.tryAddToCache c r ttl now = Cache.add c q0 r (now + ttl) := by
  unfold V1.tryAddToCache
  rw [hq0, hrc]
  simp

/-- Characterization of `tryAddToCache`: an ineligible reply leaves the
cache unchanged. -/
theorem tryAddToCache_skip (c : Cache) (r : Msg) (ttl now : Nat)
    (h : r.question.length ≠ 1 ∨ r.rcode ≠ rcodeSuccess) :
    V1.tryAddToCache c r ttl now = c := by
  unfold V1.tryAddToCache
  rcases hq : r.question with _ | ⟨a, _ | ⟨b, t⟩⟩
  · rfl
  · rcases h with hlen | hrc
    · exact absurd (by rw [hq]; rfl) hlen
    · simp [beq_iff_eq, hrc]
  · rfl

/-- C2 — after a successful dispatch with reply `r` (cache enabled, cache
miss on the way in), `ServeDNS` returns `r` with all TTLs rewritten to
`max(min_answer_ttl(r), min_ttl)` and inserts that reply into the cache
with absolute expiry `now + ttl` exactly when `r` has one question and
RCODE NOERROR; otherwise the cache is unchanged. -/
theorem c2_cache_insert_iff (d : V1.Dispatcher) (c : Cache) (q r : Msg)
    (now : Nat) (hc : d.cacheEnabled = true)
    (hm : V1.tryGetFromCache c q now = .ok none) :
    ∃ c2,
      V1.ServeDNS d c q (.ok r) now =
        .ok (.ok (SetAnswerTTL r (max (GetAnswerMinTTL r) d.minTTL)), c2) ∧
      (∀ q0, r.question = [q0] → r.rcode = rcodeSuccess →
        c2 = Cache.add c q0 (SetAnswerTTL r (max (GetAnswerMinTTL r) d.minTTL))
          (now + max (GetAnswerMinTTL r) d.minTTL)) ∧
      ((r.question.length ≠ 1 ∨ r.rcode ≠ rcodeSuccess) → c2 = c) := by
  refine ⟨V1.tryAddToCache c (SetAnswerTTL r (max (GetAnswerMinTTL r) d.minTTL))
      (max (GetAnswerMinTTL r) d.minTTL) now, ?_, ?_, ?_⟩
  · rw [serveDNS_miss d c q (.ok r) now hc hm, afterDispatch_ok, hc, if_pos rfl]
  · intro q0 hq0 hrc
    have hq2 : (SetAnswerTTL r (max (GetAnswerMinTTL r) d.minTTL)).question = [q0] := by
      rw [setAnswerTTL_question, hq0]
    have hr2 : (SetAnswerTTL r (max (GetAnswerMinTTL r) d.minTTL)).rcode = rcodeSuccess := by
      rw [setAnswerTTL_rcode, hrc]
    exact tryAddToCache_insert _ _ _ _ q0 hq2 hr2
  · intro h
    apply tryAddToCache_skip
    rw [setAnswerTTL_question, setAnswerTTL_rcode]
    exact h

/-- C3 — for a successful dispatch (no cache hit) with reply `r`, every RR
of the reply returned by `ServeDNS` (across Answer, Authority and
Additional) carries exactly `max(min_answer_ttl(r), min_ttl)`, hence at
least `min_ttl`. -/
theorem c3_ttl_floor (d : V1.Dispatcher) (c : Cache) (q r r2 : Msg)
    (c2 : Cache) (now : Nat)
    (hmiss : d.cacheEnabled = false ∨ V1.tryGetFromCache c q now = .ok none)
    (h : V1.ServeDNS d c q (.ok r) now = .ok (.ok r2, c2)) :
    ∀ rr ∈ r2.answer ++ r2.ns ++ r2.extra,
      rr.ttl = max (GetAnswerMinTTL r) d.minTTL ∧ d.minTTL ≤ rr.ttl := by
  have hserve : V1.ServeDNS d c q (.ok r) now =
      .ok (V1.afterDispatch d c (.ok r) now) := by
    rcases hmiss with hcE | hm
    · unfold V1.ServeDNS
      rw [hcE]
      rfl
    · cases hcE : d.cacheEnabled
      · unfold V1.ServeDNS
        rw [hcE]
        rfl
      · exact serveDNS_miss d c q (.ok r) now hcE hm
  rw [hserve, afterDispatch_ok] at h
  have hr2 : r2 = SetAnswerTTL r (max (GetAnswerMinTTL r) d.minTTL) := by
    have h1 := congrArg (fun x => match x with
      | Except.ok (p : Except DispatchError Msg × Cache) => p.1
      | Except.error _ => Except.error DispatchError.allUpstreamsFailed) h
    simp only at h1
    injection h1 with h2
    exact h2.symm
  subst hr2
  intro rr hrr
  have httl : rr.ttl = max (GetAnswerMinTTL r) d.minTTL := by
    simp only [SetAnswerTTL, List.mem_append, List.mem_map] at hrr
    rcases hrr with (⟨x, _, rfl⟩ | ⟨x, _, rfl⟩) | ⟨x, _, rfl⟩ <;> rfl
  exact ⟨httl, httl ▸ Nat.le_max_right _ _⟩

/-- C4 counterexample — the claim says a query carrying ECS never fills the
cache.  Concretely: `exQueryECS` carries ECS, the cache starts empty, the
dispatch reply is eligible (one question, NOERROR), and `ServeDNS` inserts
it: the cache state after serving differs from the state before. -/
theorem c4_counterexample_ecs_reply_cached :
    checkMsgHasECS exQueryECS = true ∧
    V1.ServeDNS exConf [] exQueryECS (.ok exReplyECS) 0 =
      .ok (.ok exReplyECS, [(exQuestion, exReplyECS, 300)]) ∧
    ([(exQuestion, exReplyECS, 300)] : Cache) ≠ ([] : Cache) := by
  refine ⟨rfl, rfl, ?_⟩
  simp

/-- C4 amended — a query carrying ECS never hits the cache
(`tryGetFromCache` always reports a miss for it), but cache insertion
depends only on the reply: when the dispatch reply has one question and
RCODE NOERROR, `ServeDNS` inserts it into the cache even though the query
carried ECS, so the cache state changes. -/
theorem c4_amended_ecs_no_hit_but_fills (d : V1.Dispatcher) (c : Cache)
    (q r : Msg) (now : Nat) (hecs : checkMsgHasECS q = true) :
    V1.tryGetFromCache c q now = .ok none ∧
    (d.cacheEnabled = true → ∀ q0, r.question = [q0] →
      r.rcode = rcodeSuccess →
      ∃ c2, V1.ServeDNS d c q (.ok r) now =
          .ok (.ok (SetAnswerTTL r (max (GetAnswerMinTTL r) d.minTTL)), c2) ∧
        c2 = Cache.add c q0 (SetAnswerTTL r (max (GetAnswerMinTTL r) d.minTTL))
          (now + max (GetAnswerMinTTL r) d.minTTL) ∧
        c2 ≠ c) := by
  have hm : V1.tryGetFromCache c q now = .ok none := by
    unfold V1.tryGetFromCache
    rw [hecs]
    simp
  refine ⟨hm, ?_⟩
  intro hc q0 hq0 hrc
  have hq2 : (SetAnswerTTL r (max (GetAnswerMinTTL r) d.minTTL)).question = [q0] := by
    rw [setAnswerTTL_question, hq0]
  have hr2 : (SetAnswerTTL r (max (GetAnswerMinTTL r) d.minTTL)).rcode = rcodeSuccess := by
    rw [setAnswerTTL_rcode, hrc]
  refine ⟨V1.tryAddToCache c (SetAnswerTTL r (max (GetAnswerMinTTL r) d.minTTL))
      (max (GetAnswerMinTTL r) d.minTTL) now, ?_, ?_, ?_⟩
  · rw [serveDNS_miss d c q (.ok r) now hc hm, afterDispatch_ok, hc, if_pos rfl]
  · exact tryAddToCache_insert _ _ _ _ q0 hq2 hr2
  · rw [tryAddToCache_insert _ _ _ _ q0 hq2 hr2]
    exact cache_add_ne _ _ _ _

/-- C5 — when no upstream publishes an accepted reply (every goroutine
failed, was filtered out or timed out) and the failure notification is
delivered, `Dispatch` returns `ErrUpstreamsFailed` and `ServeDNS` returns a
non-nil reply with RCODE SERVFAIL whose id and question mirror the client's
query (the question section is the first question of the query, which for
the `|question| ≤ 1` traffic this system handles is the whole section). -/
theorem c5_all_failed_servfail (q : Msg) (results : List (Option Msg))
    (h : ∀ x ∈ results, x = none) :
    V2.Dispatch results .noEvent = .error .allUpstreamsFailed ∧
    ∃ r, V2.ServeDNS q results .noEvent = (some r, some .allUpstreamsFailed) ∧
      r.rcode = rcodeServerFailure ∧ r.id = q.id ∧
      r.question = q.question.take 1 := by
  have hfm : results.filterMap id = [] := by
    rw [List.filterMap_eq_nil_iff]
    intro a ha
    rw [h a ha]
    rfl
  have hd : V2.Dispatch results .noEvent = .error .allUpstreamsFailed := by
    unfold V2.Dispatch
    rw [hfm]
  refine ⟨hd,
    { dnslib.SetReply Msg.empty q with rcode := rcodeServerFailure },
    ?_, rfl, rfl, ?_⟩
  · unfold V2.ServeDNS
    rw [hd]
    rfl
  · rcases hq : q.question with _ | ⟨q0, rest⟩ <;>
      simp [dnslib.SetReply, hq, Msg.empty]

/-- C9 — `Dispatch` never returns `ErrUpstreamsFailed` once some upstream
goroutine has published an accepted reply to the one-slot result channel
(the failure notification fires only with the slot empty after all
goroutines finished); and if additionally no context event pre-empts the
delivery, `Dispatch` returns one of the published replies. -/
theorem c9_published_reply_wins (results : List (Option Msg)) (ev : CtxEvent)
    (m0 : Msg) (h : some m0 ∈ results) :
    V2.Dispatch results ev ≠ .error .allUpstreamsFailed ∧
    (ev = .noEvent →
      ∃ m, V2.Dispatch results ev = .ok m ∧ some m ∈ results) := by
  have hmem : m0 ∈ results.filterMap id := List.mem_filterMap.2 ⟨some m0, h, rfl⟩
  cases ev with
  | deadline =>
    refine ⟨fun hcon => ?_, fun hev => nomatch hev⟩
    exact DispatchError.noConfusion (Except.error.inj hcon)
  | cancelled =>
    refine ⟨fun hcon => ?_, fun hev => nomatch hev⟩
    exact DispatchError.noConfusion (Except.error.inj hcon)
  | noEvent =>
    cases hfm : results.filterMap id with
    | nil =>
      rw [hfm] at hmem
      cases hmem
    | cons m rest =>
      have hD : V2.Dispatch results .noEvent = .ok m := by
        unfold V2.Dispatch
        rw [hfm]
      have hm : some m ∈ results := by
        have hmm : m ∈ results.filterMap id := by
          rw [hfm]
          exact List.mem_cons_self m rest
        rcases List.mem_filterMap.1 hmm with ⟨a, ha, hid⟩
        cases a with
        | none => cases hid
        | some x =>
          cases hid
          exact ha
      refine ⟨fun hcon => ?_, fun _ => ⟨m, hD, hm⟩⟩
      rw [hD] at hcon
      exact Except.noConfusion hcon

/-- C10 — `StartServer` always returns a non-nil error: immediately for an
empty bind list, a malformed bind string, an unknown protocol or a listen
failure (whatever error the bind loop produced is returned as-is), and
otherwise the first listener-goroutine failure is wrapped and returned. -/
theorem c10_start_server_always_errors
    (listen listenPacket : String → String → Option String)
    (listenerErr : Option String) (binds : List String) :
    V2.StartServer listen listenPacket listenerErr binds ≠ none ∧
    (binds = [] →
      V2.StartServer listen listenPacket listenerErr binds =
        some .noAddressToBind) ∧
    (∀ e, binds ≠ [] → V2.bindLoop listen listenPacket binds = some e →
      V2.StartServer listen listenPacket listenerErr binds = some e) ∧
    (binds ≠ [] → V2.bindLoop listen listenPacket binds = none →
      V2.StartServer listen listenPacket listenerErr binds =
        some (.listenerExited listenerErr)) := by
  have hE : binds ≠ [] → binds.isEmpty = false := by
    intro hl
    cases binds with
    | nil => exact absurd rfl hl
    | cons a t => rfl
  refine ⟨?_, ?_, ?_, ?_⟩
  · cases hb : binds.isEmpty with
    | true => simp [V2.StartServer, hb]
    | false =>
      cases hbl : V2.bindLoop listen listenPacket binds <;>
        simp [V2.StartServer, hb, hbl]
  · intro h
    subst h
    rfl
  · intro e hne hbl
    simp [V2.StartServer, hE hne, hbl]
  · intro hne hbl
    simp [V2.StartServer, hE hne, hbl]

/-- Witness for C10: with an empty bind list `StartServer` reports "no
address to bind", and with one udp bind that listens fine it wraps the
(here Go-nil) listener failure — in both cases a non-nil error. -/
theorem c10_witness :
    V2.StartServer alwaysListenOk alwaysListenOk none [] =
      some .noAddressToBind ∧
    V2.StartServer alwaysListenOk alwaysListenOk none ["udp://:53"] =
      some (.listenerExited none) := by
  constructor
  · exact (c10_start_server_always_errors alwaysListenOk alwaysListenOk
      none []).2.1 rfl
  · exact (c10_start_server_always_errors alwaysListenOk alwaysListenOk
      none ["udp://:53"]).2.2.2 (by simp) (by rfl)

/-- Witness for C5 at a concrete query and two silently-failing
upstreams. -/
theorem c5_witness :
    V2.Dispatch [none, none] .noEvent = .error .allUpstreamsFailed ∧
    ∃ r, V2.ServeDNS exQuery [none, none] .noEvent =
        (some r, some .allUpstreamsFailed) ∧
      r.rcode = rcodeServerFailure ∧ r.id = exQuery.id ∧
      r.question = exQuery.question.take 1 :=
  c5_all_failed_servfail exQuery [none, none] (by decide)

/-- Witness for C9: one upstream fails, one publishes `exReply`; the
dispatcher returns a published reply and not `ErrUpstreamsFailed`. -/
theorem c9_witness :
    V2.Dispatch [none, some exReply] .noEvent ≠ .error .allUpstreamsFailed ∧
    (CtxEvent.noEvent = .noEvent →
      ∃ m, V2.Dispatch [none, some exReply] .noEvent = .ok m ∧
        some m ∈ [none, some exReply]) :=
  c9_published_reply_wins [none, some exReply] .noEvent exReply (by simp)

/-- Witness for C2 at concrete inputs (note that the hypothesis "cache miss
on the way in" holds for the eligible `exQuery` precisely because of the
C1 bug). -/
theorem c2_witness :
    ∃ c2,
      V1.ServeDNS exConf exCache exQuery (.ok exReply) 0 =
        .ok (.ok (SetAnswerTTL exReply
          (max (GetAnswerMinTTL exReply) exConf.minTTL)), c2) ∧
      (∀ q0, exReply.question = [q0] → exReply.rcode = rcodeSuccess →
        c2 = Cache.add exCache q0 (SetAnswerTTL exReply
          (max (GetAnswerMinTTL exReply) exConf.minTTL))
          (0 + max (GetAnswerMinTTL exReply) exConf.minTTL)) ∧
      ((exReply.question.length ≠ 1 ∨ exReply.rcode ≠ rcodeSuccess) →
        c2 = exCache) :=
  c2_cache_insert_iff exConf exCache exQuery exReply 0 rfl rfl

/-- Witness for C3 at concrete inputs: the returned reply's RRs all carry
`max (GetAnswerMinTTL exReply) 60 = 300`. -/
theorem c3_witness :
    (⟨300⟩ : RR).ttl = max (GetAnswerMinTTL exReply) exConf.minTTL ∧
    exConf.minTTL ≤ (⟨300⟩ : RR).ttl :=
  c3_ttl_floor exConf exCache exQuery exReply exReply
    ((exQuestion, exReply, 300) :: exCache) 0 (Or.inr rfl) rfl ⟨300⟩
    (by simp [exReply])

/-- Witness for C4-amended at concrete inputs. -/
theorem c4_witness :
    V1.tryGetFromCache exCache exQueryECS 0 = .ok none ∧
    ∃ c2, V1.ServeDNS exConf exCache exQueryECS (.ok exReplyECS) 0 =
        .ok (.ok (SetAnswerTTL exReplyECS
          (max (GetAnswerMinTTL exReplyECS) exConf.minTTL)), c2) ∧
      c2 = Cache.add exCache exQuestion (SetAnswerTTL exReplyECS
        (max (GetAnswerMinTTL exReplyECS) exConf.minTTL))
        (0 + max (GetAnswerMinTTL exReplyECS) exConf.minTTL) ∧
      c2 ≠ exCache :=
  ⟨(c4_amended_ecs_no_hit_but_fills exConf exCache exQueryECS exReplyECS 0 rfl).1,
   (c4_amended_ecs_no_hit_but_fills exConf exCache exQueryECS exReplyECS 0 rfl).2
     rfl exQuestion rfl rfl⟩

/-- Unfolding `processedLines` over one raw line. -/
theorem processedLines_cons (l : String) (rest : List String) :
    domainlist.processedLines (l :: rest) =
      if (domainlist.goTrimSpace l).isEmpty ||
          domainlist.goHasPrefixHash (domainlist.goTrimSpace l) then
        domainlist.processedLines rest
      else domainlist.goTrimSpace l :: domainlist.processedLines rest := by
  unfold domainlist.processedLines
  simp only [List.map_cons, List.filter_cons]
  cases h : ((domainlist.goTrimSpace l).isEmpty ||
    domainlist.goHasPrefixHash (domainlist.goTrimSpace l)) <;> simp [h]

/-- The loader loop with `continueOnInvalidString` true adds every
processed line in FQDN form, the invalid ones included. -/
theorem loadLoop_cont (p : String → Bool) (lines : List String) : ∀ n,
    domainlist.loadLoop p true lines n =
      .ok ((domainlist.processedLines lines).map dnslib.Fqdn) := by
  induction lines with
  | nil => intro n; rfl
  | cons l rest ih =>
    intro n
    rw [processedLines_cons]
    simp only [domainlist.loadLoop]
    cases hskip : ((domainlist.goTrimSpace l).isEmpty ||
      domainlist.goHasPrefixHash (domainlist.goTrimSpace l)) <;> simp [hskip, ih]

/-- The loader loop with `continueOnInvalidString` false errors at the
first invalid processed line and otherwise adds every processed line in
FQDN form. -/
theorem loadLoop_strict (p : String → Bool) (lines : List String) : ∀ n,
    domainlist.loadLoop p false lines n =
      match domainlist.firstInvalid p lines n with
      | some (l, m) => .error ⟨l, m⟩
      | none => .ok ((domainlist.processedLines lines).map dnslib.Fqdn) := by
  induction lines with
  | nil => intro n; rfl
  | cons l rest ih =>
    intro n
    rw [processedLines_cons]
    simp only [domainlist.loadLoop, domainlist.firstInvalid]
    cases hskip : ((domainlist.goTrimSpace l).isEmpty ||
      domainlist.goHasPrefixHash (domainlist.goTrimSpace l))
    · cases hp : p (dnslib.Fqdn (domainlist.goTrimSpace l))
      · simp [hskip, hp]
      · rcases hfi : domainlist.firstInvalid p rest (n + 1) with _ | ⟨a, b⟩ <;>
          simp [hskip, hp, ih, hfi]
    · rcases hfi : domainlist.firstInvalid p rest (n + 1) with _ | ⟨a, b⟩ <;>
        simp [hskip, ih, hfi]

/-- C7 amended — `NewListFormReader` ignores blank lines and lines starting
with `#` (after trimming); with `continueOnInvalidString` false it returns
the error naming the first invalid processed line (1-based) and no list;
with it true, every processed line — the invalid ones included, after only
a warning — is added to the returned list in FQDN form.  Stated as a
refinement: the source loader equals the spec-side model
`newListSpecModel` for every domain-name check, flag and input. -/
theorem c7_amended_loader_equals_spec_model (p : String → Bool) (cont : Bool)
    (lines : List String) :
    domainlist.NewListFormReader p cont lines =
      domainlist.newListSpecModel p cont lines := by
  cases cont
  · unfold domainlist.NewListFormReader domainlist.newListSpecModel
    rw [loadLoop_strict]
    simp
  · unfold domainlist.NewListFormReader domainlist.newListSpecModel
    rw [loadLoop_cont]
    simp

/-- C7 counterexample — the claim says invalid lines are skipped and never
become entries when `continueOnInvalidString` is true.  Concretely:
`"a..b"` (an empty DNS label, invalid for `dns.IsDomainName`) is warned
about but still added — the returned list contains `"a..b."`. -/
theorem c7_counterexample_invalid_line_added :
    exIsDomainName (dnslib.Fqdn "a..b") = false ∧
    domainlist.NewListFormReader exIsDomainName true
      ["ok.com", "", "# comment", "a..b"] = .ok ["ok.com.", "a..b."] := by
  constructor
  · rfl
  · rfl
